import Mathlib

/-
  Verification of the poly-copy trade-mirroring programs.

  The definitions below are a shallow embedding of the two source files:
  - `websocket-listener.js`: the event-stream classifier `determineTradeType`.
  - the unnamed poller/mirror file, which contains two concatenated program
    versions, each with its own `mirrorTrade` and `pollForTrades`.  The
    first version mirror validates field presence and rounds price/size; the
    second version mirror (rendered here as `mirrorTrade2`) performs no
    validation and no rounding.  Both poll loops are textually identical and
    are embedded once as `pollForTrades`.

  JavaScript numbers are modelled as rationals (`ℚ`), with `Option ℚ` where
  NaN can arise; JS `Math.round` is `fun q => ⌊q + 1/2⌋` (round half toward
  +∞); the JS `Set` with its insertion-order iteration is modelled as a
  duplicate-free `List String` to which new ids are appended.
-/

namespace PolyCopy

/-- RawFillEvent as built by the OrderFilled handler in websocket-listener.js
(lines 234-246): every field the handler stores, asset ids and amounts already
stringified. -/
structure RawFillEvent where
  blockNumber : Nat
  txHash : String
  orderHash : String
  maker : String
  taker : String
  makerAssetId : String
  takerAssetId : String
  makerAmountFilled : String
  takerAmountFilled : String
  fee : String
deriving DecidableEq

/-- ASCII lowering of one character, as JS toLowerCase acts on the ASCII
addresses this program compares. -/
def lowerChar (c : Char) : Char :=
  if 65 ≤ c.toNat ∧ c.toNat ≤ 90 then Char.ofNat (c.toNat + 32) else c

/-- Model of the JS String.toLowerCase builtin on ASCII strings. -/
def jsToLower (s : String) : String := String.mk (s.data.map lowerChar)

/-- The monitored address, lowercased at definition site as in the source
(websocket-listener.js line 11). -/
def TARGET_ADDRESS : String := jsToLower "0xa9456cecF9d6fb545F6408E0e2DbBFA307d7BaE6"

/-- Sentinel asset id meaning USDC (websocket-listener.js line 123). -/
def ZERO_ASSET : String := "0"

/-- determineTradeType from websocket-listener.js lines 115-146: maker branch
first, then taker branch, else UNKNOWN. -/
def determineTradeType (trade : RawFillEvent) : String :=
  let targetLower := jsToLower TARGET_ADDRESS
  let makerLower := jsToLower trade.maker
  let takerLower := jsToLower trade.taker
  let isMaker := makerLower == targetLower
  let isTaker := takerLower == targetLower
  if isMaker then
    if trade.makerAssetId == ZERO_ASSET then "BUY" else "SELL"
  else if isTaker then
    if trade.takerAssetId == ZERO_ASSET then "SELL" else "BUY"
  else
    "UNKNOWN"

/-- Spec-side predicate: the target address equals the maker, case
insensitively (spec section 4.1). -/
def isMakerOf (t : RawFillEvent) : Bool := jsToLower t.maker == jsToLower TARGET_ADDRESS

/-- Spec-side predicate: the target address equals the taker, case
insensitively (spec section 4.1). -/
def isTakerOf (t : RawFillEvent) : Bool := jsToLower t.taker == jsToLower TARGET_ADDRESS

/-- A JavaScript value in one of the mirror-input fields: absent, a string, or
a (finite) number. -/
inductive JSVal where
  | missing
  | str (s : String)
  | num (q : ℚ)
deriving DecidableEq

/-- JS truthiness test used by the `!asset || !side || !size || !price` guard:
undefined, the empty string and 0 are falsy. -/
def falsy : JSVal → Bool
  | .missing => true
  | .str s => s == ""
  | .num q => q == 0

/-- Longest leading run of decimal digits of a character list, with the rest. -/
def takeDigits : List Char → List Char × List Char
  | [] => ([], [])
  | c :: cs =>
    if c.isDigit then
      let p := takeDigits cs
      (c :: p.1, p.2)
    else
      ([], c :: cs)

/-- Value of a digit string read in base 10. -/
def natOfDigits (l : List Char) : Nat :=
  l.foldl (fun a c => 10 * a + (c.toNat - 48)) 0

/-- Model of the JS parseFloat builtin on the decimal literals this program
feeds it: optional sign, longest digit prefix, optional fractional part;
`none` models NaN (no digits at all). -/
def parseFloat (s : String) : Option ℚ :=
  let cs := s.toList
  let sc : ℚ × List Char :=
    match cs with
    | '-' :: r => (-1, r)
    | '+' :: r => (1, r)
    | _ => (1, cs)
  let ip := takeDigits sc.2
  let fp : List Char :=
    match ip.2 with
    | '.' :: r => (takeDigits r).1
    | _ => []
  if ip.1 = [] ∧ fp = [] then none
  else some (sc.1 * ((natOfDigits ip.1 : ℚ) + (natOfDigits fp : ℚ) / (10 : ℚ) ^ fp.length))

/-- parseFloat applied to a field value, as the mirror does before arithmetic;
a number field round-trips to itself, a missing field is NaN. -/
def toNumber : JSVal → Option ℚ
  | .missing => none
  | .str s => parseFloat s
  | .num q => some q

/-- The clob-client Side enum. -/
inductive Side where
  | BUY
  | SELL
deriving DecidableEq

/-- Order parameters handed to clobClient.createOrder.  `feeRateBps` is only
set by the first mirrorTrade version; `none` price/size model NaN. -/
structure OrderParams where
  tokenID : JSVal
  side : Side
  size : Option ℚ
  price : Option ℚ
  feeRateBps : Option ℕ
deriving DecidableEq

/-- Outcome of the pre-network phase of a mirror attempt: either the
missing-field abort (return null before createOrder) or the parameters that
reach createOrder. -/
inductive MirrorResult where
  | abortMissingFields
  | submit (params : OrderParams)
deriving DecidableEq

/-- JS Math.round: round half toward positive infinity. -/
def jsRound (q : ℚ) : ℤ := ⌊q + 1/2⌋

/-- Price tick rounding of the first mirrorTrade:
Math.round(parseFloat(price) * 1000) / 1000. -/
def roundPrice (p : ℚ) : ℚ := (jsRound (p * 1000) : ℚ) / 1000

/-- Price clamp of the first mirrorTrade: Math.max(0.01, Math.min(0.99, p)). -/
def clampPrice (p : ℚ) : ℚ := max (1/100) (min (99/100) p)

/-- Size rounding of the first mirrorTrade:
Math.round(parseFloat(size) * 100) / 100. -/
def roundSize (s : ℚ) : ℚ := (jsRound (s * 100) : ℚ) / 100

/-- Mirror input destructured by both mirrorTrade versions:
{asset, side, size, price}. -/
structure TradeData where
  asset : JSVal
  side : JSVal
  size : JSVal
  price : JSVal
deriving DecidableEq

/-- First mirrorTrade version (part_000 lines 101-145): presence guard on the
four fields, then tick rounding, clamping, 2-dp size rounding and the
BUY-else-SELL side map, producing the createOrder parameters. -/
def mirrorTrade (d : TradeData) : MirrorResult :=
  if falsy d.asset || falsy d.side || falsy d.size || falsy d.price then
    .abortMissingFields
  else
    let roundedPrice : Option ℚ := (toNumber d.price).map (fun p => clampPrice (roundPrice p))
    let roundedSize : Option ℚ := (toNumber d.size).map roundSize
    let orderSide : Side := if d.side = JSVal.str "BUY" then .BUY else .SELL
    .submit ⟨d.asset, orderSide, roundedSize, roundedPrice, some 0⟩

/-- Second mirrorTrade version (part_000 lines 496-534): no validation and no
rounding; parseFloat results are passed straight to createOrder. -/
def mirrorTrade2 (d : TradeData) : MirrorResult :=
  .submit ⟨d.asset, (if d.side = JSVal.str "BUY" then .BUY else .SELL),
    toNumber d.size, toNumber d.price, none⟩

/-- The side slot of a mirror attempt that reached createOrder. -/
def sideOf : MirrorResult → Option Side
  | .abortMissingFields => none
  | .submit p => some p.side

/-- postOrder response: the success field may be absent. -/
structure ApiResult where
  success : Option Bool
deriving DecidableEq

/-- What the mirror reports about a submission. -/
inductive Report where
  | success
  | failure
deriving DecidableEq

/-- Reporting step of the first mirrorTrade (part_000 lines 146-150):
`if (result.success)` — only a true flag is reported as an executed order. -/
def reportOutcome (r : ApiResult) : Report :=
  if r.success = some true then .success else .failure

/-- Reporting step of the second mirrorTrade (part_000 lines 522-524): logs
"Order placed successfully!" unconditionally once postOrder returns. -/
def reportOutcome2 (_r : ApiResult) : Report := .success

/-- Activity record from the data API, restricted to the fields pollForTrades
and logTrade read (part_000 lines 301-343). -/
structure ActivityRecord where
  timestamp : ℤ
  type : String
  transactionHash : String
  asset : String
  side : JSVal
  size : JSVal
  price : JSVal
deriving DecidableEq

/-- Dedup key derived in pollForTrades:
tradeId = transactionHash + "-" + asset. -/
def tradeId (r : ActivityRecord) : String := r.transactionHash ++ "-" ++ r.asset

/-- seenTrades.has(id): the JS Set is modelled as its insertion-ordered key
list. -/
def ledgerHas (seen : List String) (id : String) : Bool := seen.contains id

/-- seenTrades.add(id): appends a new key, leaves the set unchanged when the
key is already present (JS Set.add keeps the original insertion position). -/
def ledgerAdd (seen : List String) (id : String) : List String :=
  if seen.contains id then seen else seen ++ [id]

/-- The admission step of the dedup ledger of spec section 4.2, exactly the
has-check followed by add that pollForTrades inlines: true and an insertion
when the id is new, false and no change when it is already present. -/
def admitId (seen : List String) (id : String) : Bool × List String :=
  if ledgerHas seen id then (false, seen) else (true, seen ++ [id])

/-- A sequence of admissions, recording each id with the boolean the
admission step returned for it. -/
def admitResults (seen : List String) : List String → List (String × Bool)
  | [] => []
  | id :: rest =>
    let p := admitId seen id
    (id, p.1) :: admitResults p.2 rest

/-- The per-record loop of pollForTrades (part_000 lines 309-331), run against
the watermark `wm` (the module-level lastTimestamp, which the loop body never
writes): seen ids are skipped; records older than wm - 5 are marked seen but
not mirrored; the rest are marked seen and collected as mirror invocations. -/
def pollStep (wm : ℤ) : List String → List ActivityRecord → List String × List ActivityRecord
  | seen, [] => (seen, [])
  | seen, r :: rs =>
    if ledgerHas seen (tradeId r) then
      pollStep wm seen rs
    else if r.timestamp < wm - 5 then
      pollStep wm (ledgerAdd seen (tradeId r)) rs
    else
      let p := pollStep wm (ledgerAdd seen (tradeId r)) rs
      (p.1, r :: p.2)

/-- Watermark update after the loop (part_000 lines 334-336): take the head of
the descending-sorted list when it is newer than lastTimestamp. -/
def updateWatermark (wm : ℤ) : List ActivityRecord → ℤ
  | [] => wm
  | t :: _ => if t.timestamp > wm then t.timestamp else wm

/-- Ledger compaction (part_000 lines 339-342): once the set has more than
10000 keys, Array.from exposes them in insertion order and the first 5000
(the oldest) are deleted in one pass. -/
def compactLedger (seen : List String) : List String :=
  if seen.length > 10000 then seen.drop 5000 else seen

/-- Insertion step of the descending-timestamp sort applied by
`trades.sort((a, b) => b.timestamp - a.timestamp)`. -/
def insertDesc (r : ActivityRecord) : List ActivityRecord → List ActivityRecord
  | [] => [r]
  | x :: xs => if r.timestamp ≤ x.timestamp then x :: insertDesc r xs else r :: x :: xs

/-- Sort by timestamp descending, newest first. -/
def sortDesc (l : List ActivityRecord) : List ActivityRecord := l.foldr insertDesc []

/-- The `type == TRADE` filter fetchTargetActivity applies before the loop. -/
def tradeFilter (l : List ActivityRecord) : List ActivityRecord :=
  l.filter (fun r => r.type == "TRADE")

/-- Boolean check that a record list is sorted newest-first, the shape the
poll loop receives after its sort call. -/
def sortedDesc : List ActivityRecord → Bool
  | [] => true
  | [_] => true
  | a :: b :: rs => decide (b.timestamp ≤ a.timestamp) && sortedDesc (b :: rs)

/-- Module state read and written by one poll cycle: the seenTrades set and
lastTimestamp. -/
structure PollState where
  seen : List String
  lastTimestamp : ℤ
deriving DecidableEq

/-- One full pollForTrades cycle over a fetched activity page: filter to
trades, sort newest first, run the dedup/mirror loop, advance the watermark,
compact the ledger; returns the new state and the records handed to the
mirror. -/
def pollForTrades (st : PollState) (activity : List ActivityRecord) :
    PollState × List ActivityRecord :=
  let trades := sortDesc (tradeFilter activity)
  let p := pollStep st.lastTimestamp st.seen trades
  ⟨⟨compactLedger p.1, updateWatermark st.lastTimestamp trades⟩, p.2⟩

/-- Self-fill record: the target address is both maker (checksummed casing)
and taker, and both asset ids are the sentinel "0". -/
def selfFill : RawFillEvent :=
  ⟨0, "0xtx1", "0xorder1", "0xA9456CECf9D6FB545f6408e0E2dBbfa307D7bae6",
   "0xa9456cecF9d6fb545F6408E0e2DbBFA307d7BaE6", "0", "0", "10", "10", "0"⟩

/-- Fill where the target is the maker giving the sentinel asset. -/
def makerBuyFill : RawFillEvent :=
  ⟨0, "0xtx2", "0xorder2", "0xa9456cecf9d6fb545f6408e0e2dbbfa307d7bae6",
   "0xdead", "0", "777", "10", "10", "0"⟩

/-- Fill where the target is the maker and both asset ids are non-sentinel. -/
def dualNonSentinelFill : RawFillEvent :=
  ⟨0, "0xtx3", "0xorder3", "0xa9456cecf9d6fb545f6408e0e2dbbfa307d7bae6",
   "0xbeef", "11", "22", "10", "10", "0"⟩

/-- The size slot of a mirror attempt that reached createOrder. -/
def sizeSlot : MirrorResult → Option (Option ℚ)
  | .abortMissingFields => none
  | .submit p => some p.size

/-- The price slot of a mirror attempt that reached createOrder. -/
def priceSlot : MirrorResult → Option (Option ℚ)
  | .abortMissingFields => none
  | .submit p => some p.price

/-- The invalid-side mirror input of the spec
{tokenId:"123", side:"HOLD", size:"5", price:"0.5"}. -/
def holdInput : TradeData := ⟨.str "123", .str "HOLD", .str "5", .str "0.5"⟩

/-- Mirror input whose size field is the non-numeric string "abc". -/
def nonNumericSizeInput : TradeData := ⟨.str "123", .str "BUY", .str "abc", .str "0.5"⟩

/-- Mirror input with a missing asset field. -/
def missingAssetInput : TradeData := ⟨.missing, .str "BUY", .str "5", .str "0.5"⟩

/-- Mirror input with price 1.2, above the valid price band. -/
def highPriceInput : TradeData := ⟨.str "7", .str "BUY", .str "5", .num (6/5)⟩

/-- A well-formed BUY mirror input with price 0.4567. -/
def buyInput : TradeData := ⟨.str "7", .str "BUY", .str "5", .str "0.4567"⟩

/-- The createOrder parameters the first mirrorTrade builds for `buyInput`. -/
def buyParams : OrderParams :=
  ⟨JSVal.str "7", Side.BUY, (toNumber (JSVal.str "5")).map roundSize,
   (toNumber (JSVal.str "0.4567")).map (fun q => clampPrice (roundPrice q)), some 0⟩

/-- The createOrder parameters the second mirrorTrade builds for `buyInput`. -/
def buyParams2 : OrderParams :=
  ⟨JSVal.str "7", Side.BUY, toNumber (JSVal.str "5"), toNumber (JSVal.str "0.4567"), none⟩

/-- Activity record with a fresh timestamp; its dedup key is "0xt1-111". -/
def recFresh : ActivityRecord := ⟨101, "TRADE", "0xt1", "111", .str "BUY", .str "5", .str "0.5"⟩

/-- Activity record with a stale timestamp; its dedup key is "0xt2-222". -/
def recStale : ActivityRecord := ⟨90, "TRADE", "0xt2", "222", .str "SELL", .str "1", .str "0.4"⟩

/-- Activity record with a fresh timestamp; its dedup key is "0xt3-333". -/
def recOther : ActivityRecord := ⟨101, "TRADE", "0xt3", "333", .str "BUY", .str "2", .str "0.6"⟩

/-- Poll state whose ledger already holds the dedup key of recFresh. -/
def seededState : PollState := ⟨["0xt1-111"], 100⟩

/-- Claim C1 (counterexample): the taker clause of the claim says that a record in
which the target equals the taker (case-insensitively) with takerAssetId "0"
is classified SELL.  On `selfFill` the target equals the taker and
takerAssetId is "0", yet determineTradeType returns BUY, because the maker
branch is tested first and the target is also the maker. -/
theorem C1_counterexample :
    isTakerOf selfFill = true ∧ selfFill.takerAssetId = "0" ∧
      determineTradeType selfFill = "BUY" ∧ determineTradeType selfFill ≠ "SELL" := by
  decide

/-- Claim C1 (amended): the maker rule has precedence.  If the target equals
the maker, the side is BUY when makerAssetId is "0" and SELL otherwise; the
taker rule applies only when the target is the taker and not the maker; when
the target is neither, the result is UNKNOWN. -/
theorem C1_trade_type_table (t : RawFillEvent) :
    (isMakerOf t = true →
        determineTradeType t = if t.makerAssetId == "0" then "BUY" else "SELL")
    ∧ (isMakerOf t = false → isTakerOf t = true →
        determineTradeType t = if t.takerAssetId == "0" then "SELL" else "BUY")
    ∧ (isMakerOf t = false → isTakerOf t = false →
        determineTradeType t = "UNKNOWN") := by
  unfold determineTradeType isMakerOf isTakerOf ZERO_ASSET
  refine ⟨fun h1 => ?_, fun h1 h2 => ?_, fun h1 h2 => ?_⟩
  · simp [h1]
  · simp [h1, h2]
  · simp [h1, h2]

/-- Claim C1 (witness): on a concrete maker-side fill giving the sentinel
asset, the amended table yields BUY. -/
theorem C1_witness : determineTradeType makerBuyFill = "BUY" :=
  ((C1_trade_type_table makerBuyFill).1 (by decide)).trans (by decide)

/-- Claim C2 (counterexample): with both asset ids different from "0" and the
target as maker, determineTradeType returns SELL, not the UNKNOWN the claim
requires. -/
theorem C2_counterexample :
    dualNonSentinelFill.makerAssetId ≠ "0" ∧ dualNonSentinelFill.takerAssetId ≠ "0" ∧
      isMakerOf dualNonSentinelFill = true ∧
      determineTradeType dualNonSentinelFill = "SELL" ∧
      determineTradeType dualNonSentinelFill ≠ "UNKNOWN" := by
  decide

/-- Claim C2 (amended): when both asset ids differ from the sentinel "0",
classification does not fail; the leg of the target decides: SELL when the
target is the maker, BUY when the target is the taker only, and UNKNOWN only
when the target is neither counterparty. -/
theorem C2_dual_nonsentinel (t : RawFillEvent)
    (hm : t.makerAssetId ≠ "0") (ht : t.takerAssetId ≠ "0") :
    determineTradeType t =
      if isMakerOf t then "SELL" else if isTakerOf t then "BUY" else "UNKNOWN" := by
  unfold determineTradeType isMakerOf isTakerOf ZERO_ASSET
  rcases hb : (jsToLower t.maker == jsToLower TARGET_ADDRESS) with _ | _ <;>
    rcases hb2 : (jsToLower t.taker == jsToLower TARGET_ADDRESS) with _ | _ <;>
      simp [hb, hb2, hm, ht]

/-- Claim C2 (witness): the amended rule evaluated on the concrete
dual-non-sentinel maker fill gives SELL. -/
theorem C2_witness : determineTradeType dualNonSentinelFill = "SELL" :=
  (C2_dual_nonsentinel dualNonSentinelFill (by decide) (by decide)).trans (by decide)

/-- Claim C3 (counterexample): on the test input of the spec with side "HOLD",
neither mirrorTrade version aborts; both proceed to createOrder, and both map
the unrecognised side to SELL. -/
theorem C3_counterexample :
    mirrorTrade holdInput ≠ MirrorResult.abortMissingFields ∧
    sideOf (mirrorTrade holdInput) = some Side.SELL ∧
    mirrorTrade2 holdInput ≠ MirrorResult.abortMissingFields ∧
    sideOf (mirrorTrade2 holdInput) = some Side.SELL := by
  decide

/-- Claim C3 (amended): mirrorTrade never validates the side value.  Whenever
the four fields pass the truthiness guard, the first version submits an order
whose side is BUY exactly when the side field is the string "BUY" and SELL for
every other value (including "HOLD" and "UNKNOWN"); the second version submits
under the same side map with no guard at all. -/
theorem C3_side_mapping (d : TradeData)
    (ha : falsy d.asset = false) (hs : falsy d.side = false)
    (hz : falsy d.size = false) (hp : falsy d.price = false) :
    mirrorTrade d ≠ MirrorResult.abortMissingFields ∧
    sideOf (mirrorTrade d) =
      some (if d.side = JSVal.str "BUY" then Side.BUY else Side.SELL) ∧
    (∀ e : TradeData, mirrorTrade2 e ≠ MirrorResult.abortMissingFields ∧
      sideOf (mirrorTrade2 e) =
        some (if e.side = JSVal.str "BUY" then Side.BUY else Side.SELL)) := by
  unfold mirrorTrade mirrorTrade2 sideOf
  simp [ha, hs, hz, hp]

/-- Claim C3 (witness): the side-mapping theorem instantiated on the concrete
HOLD input. -/
theorem C3_witness : mirrorTrade holdInput ≠ MirrorResult.abortMissingFields :=
  (C3_side_mapping holdInput (by decide) (by decide) (by decide) (by decide)).1

/-- Claim C4 (counterexample): the non-numeric size "abc" passes the
truthiness guard of the first mirrorTrade, which proceeds to createOrder with
size NaN; the second mirrorTrade does not even reject a missing asset. -/
theorem C4_counterexample :
    toNumber nonNumericSizeInput.size = none ∧
    mirrorTrade nonNumericSizeInput ≠ MirrorResult.abortMissingFields ∧
    sizeSlot (mirrorTrade nonNumericSizeInput) = some none ∧
    mirrorTrade2 missingAssetInput ≠ MirrorResult.abortMissingFields := by
  decide

/-- Claim C4 (amended): the first mirrorTrade aborts before any network call
exactly when one of asset, side, size, price is falsy (missing, empty string,
or the number 0); a truthy non-numeric field is not rejected.  The second
mirrorTrade never aborts. -/
theorem C4_validation_exact (d : TradeData) :
    (mirrorTrade d = MirrorResult.abortMissingFields ↔
      (falsy d.asset || falsy d.side || falsy d.size || falsy d.price) = true) ∧
    mirrorTrade2 d ≠ MirrorResult.abortMissingFields := by
  unfold mirrorTrade mirrorTrade2
  rcases hb : (falsy d.asset || falsy d.side || falsy d.size || falsy d.price) with _ | _ <;>
    simp [hb]

/-- Claim C4 (witness): a missing asset field makes the first mirrorTrade
abort. -/
theorem C4_witness :
    mirrorTrade missingAssetInput = MirrorResult.abortMissingFields :=
  (C4_validation_exact missingAssetInput).1.mpr (by decide)

/-- Claim C5 (counterexample): the second mirrorTrade submits the raw parsed
price; for input price 1.2 the submitted price is 1.2, not the rounded and
clamped 0.99 the claim requires. -/
theorem C5_counterexample :
    priceSlot (mirrorTrade2 highPriceInput) = some (some (6/5)) ∧
    clampPrice (roundPrice (6/5)) = 99/100 ∧ (6/5 : ℚ) ≠ 99/100 := by
  refine ⟨rfl, ?_, by norm_num⟩
  norm_num [clampPrice, roundPrice, jsRound]

/-- Claim C5 (amended): the first mirrorTrade submits price
clamp(round(p * 1000) / 1000) into [0.01, 0.99] and size round(s * 100) / 100,
where the rounding is the deterministic half-up Math.round rule: the result is
the 0.001 (resp. 0.01) tick nearest the input, within half a tick, and the
three price examples of the claim evaluate as stated; the second mirrorTrade
submits the parsed price and size with no rounding or clamping. -/
theorem C5_price_normalization (d : TradeData) (p : OrderParams)
    (h : mirrorTrade d = MirrorResult.submit p)
    (p₂ : OrderParams) (h₂ : mirrorTrade2 d = MirrorResult.submit p₂) :
    p.price = (toNumber d.price).map (fun q => clampPrice (roundPrice q)) ∧
    p.size = (toNumber d.size).map roundSize ∧
    p₂.price = toNumber d.price ∧
    p₂.size = toNumber d.size ∧
    (∀ q : ℚ, ∃ n : ℤ, roundPrice q = (n : ℚ) / 1000 ∧ |roundPrice q - q| ≤ 1/2000) ∧
    (∀ q : ℚ, 1/100 ≤ clampPrice q ∧ clampPrice q ≤ 99/100) ∧
    (∀ q : ℚ, ∃ n : ℤ, roundSize q = (n : ℚ) / 100 ∧ |roundSize q - q| ≤ 1/200) ∧
    clampPrice (roundPrice (4567/10000)) = 457/1000 ∧
    clampPrice (roundPrice (6/5)) = 99/100 ∧
    clampPrice (roundPrice (-1/100)) = 1/100 := by
  have hfields :
      p.price = (toNumber d.price).map (fun q => clampPrice (roundPrice q)) ∧
      p.size = (toNumber d.size).map roundSize ∧
      p₂.price = toNumber d.price ∧ p₂.size = toNumber d.size := by
    unfold mirrorTrade at h
    unfold mirrorTrade2 at h₂
    by_cases hg : (falsy d.asset || falsy d.side || falsy d.size || falsy d.price) = true
    · rw [if_pos hg] at h
      exact absurd h (by simp)
    · rw [if_neg hg] at h
      have hp : p = ⟨d.asset, if d.side = JSVal.str "BUY" then .BUY else .SELL,
          (toNumber d.size).map roundSize,
          (toNumber d.price).map (fun q => clampPrice (roundPrice q)), some 0⟩ := by
        injection h.symm
      have hp₂ : p₂ = ⟨d.asset, if d.side = JSVal.str "BUY" then .BUY else .SELL,
          toNumber d.size, toNumber d.price, none⟩ := by
        injection h₂.symm
      subst hp hp₂
      exact ⟨rfl, rfl, rfl, rfl⟩
  refine ⟨hfields.1, hfields.2.1, hfields.2.2.1, hfields.2.2.2, ?_, ?_, ?_, ?_, ?_, ?_⟩
  · intro q
    refine ⟨jsRound (q * 1000), rfl, ?_⟩
    have h1 : ((jsRound (q * 1000) : ℤ) : ℚ) ≤ q * 1000 + 1/2 := by
      unfold jsRound
      exact Int.floor_le _
    have h2 : q * 1000 + 1/2 - 1 < ((jsRound (q * 1000) : ℤ) : ℚ) := by
      unfold jsRound
      exact Int.sub_one_lt_floor _
    rw [abs_sub_le_iff]
    unfold roundPrice
    constructor <;> linarith
  · intro q
    refine ⟨le_max_left _ _, max_le (by norm_num) (min_le_left _ _)⟩
  · intro q
    refine ⟨jsRound (q * 100), rfl, ?_⟩
    have h1 : ((jsRound (q * 100) : ℤ) : ℚ) ≤ q * 100 + 1/2 := by
      unfold jsRound
      exact Int.floor_le _
    have h2 : q * 100 + 1/2 - 1 < ((jsRound (q * 100) : ℤ) : ℚ) := by
      unfold jsRound
      exact Int.sub_one_lt_floor _
    rw [abs_sub_le_iff]
    unfold roundSize
    constructor <;> linarith
  · norm_num [clampPrice, roundPrice, jsRound]
  · norm_num [clampPrice, roundPrice, jsRound]
  · norm_num [clampPrice, roundPrice, jsRound]

/-- Claim C5 (witness): the normalization theorem instantiated on the concrete
BUY input with price 0.4567. -/
theorem C5_witness :
    buyParams.price = (toNumber buyInput.price).map (fun q => clampPrice (roundPrice q)) :=
  (C5_price_normalization buyInput buyParams rfl buyParams2 rfl).1

/-- Claim C9 (counterexample): the second mirrorTrade reports success for a
postOrder result whose success flag is false, and also for one with no
success flag at all. -/
theorem C9_counterexample :
    reportOutcome2 ⟨some false⟩ = Report.success ∧
    reportOutcome2 ⟨none⟩ = Report.success ∧
    (⟨some false⟩ : ApiResult).success ≠ some true := by
  decide

/-- Claim C9 (amended): the first mirrorTrade reports success exactly when the
result carries a true success flag — an absent or false flag is reported as
failure — while the second mirrorTrade reports success unconditionally once
postOrder returns. -/
theorem C9_success_flag (r : ApiResult) :
    (reportOutcome r = Report.success ↔ r.success = some true) ∧
    reportOutcome2 r = Report.success := by
  unfold reportOutcome reportOutcome2
  by_cases h : r.success = some true <;> simp [h]

/-- Claim C9 (witness): a true success flag is reported as success by the
first mirrorTrade. -/
theorem C9_witness : reportOutcome ⟨some true⟩ = Report.success :=
  (C9_success_flag ⟨some true⟩).1.mpr rfl

/-- The ledger membership test agrees with list membership. -/
theorem ledgerHas_iff (seen : List String) (id : String) :
    ledgerHas seen id = true ↔ id ∈ seen := List.elem_iff

/-- Adding an id puts it in the ledger. -/
theorem mem_ledgerAdd_self (seen : List String) (id : String) : id ∈ ledgerAdd seen id := by
  unfold ledgerAdd
  split
  · next h => exact List.elem_iff.mp h
  · exact List.mem_append_right _ (List.mem_singleton_self id)

/-- ledgerAdd never removes previously present ids. -/
theorem ledgerAdd_subset {seen : List String} (id : String) {x : String} (hx : x ∈ seen) :
    x ∈ ledgerAdd seen id := by
  unfold ledgerAdd
  split
  · exact hx
  · exact List.mem_append_left _ hx

/-- Absence after an add implies absence before. -/
theorem not_mem_of_not_mem_ledgerAdd {seen : List String} {id x : String}
    (h : x ∉ ledgerAdd seen id) : x ∉ seen := fun hx => h (ledgerAdd_subset id hx)

/-- An id that was absent and differs from the added one stays absent. -/
theorem not_mem_ledgerAdd_of {seen : List String} {id x : String}
    (hx : x ∉ seen) (hne : x ≠ id) : x ∉ ledgerAdd seen id := by
  unfold ledgerAdd
  split
  · exact hx
  · intro hmem
    rcases List.mem_append.mp hmem with h | h
    · exact hx h
    · exact hne (List.mem_singleton.mp h)

/-- The poll loop only ever extends the seen set. -/
theorem pollStep_seen_mono (wm : ℤ) (rs : List ActivityRecord) :
    ∀ seen x, x ∈ seen → x ∈ (pollStep wm seen rs).1 := by
  induction rs with
  | nil => intro seen x hx; simpa [pollStep] using hx
  | cons r0 rs ih =>
    intro seen x hx
    by_cases h1 : ledgerHas seen (tradeId r0) = true
    · simpa [pollStep, h1] using ih seen x hx
    · by_cases h2 : r0.timestamp < wm - 5
      · simpa [pollStep, h1, h2] using ih (ledgerAdd seen (tradeId r0)) x (ledgerAdd_subset _ hx)
      · simpa [pollStep, h1, h2] using ih (ledgerAdd seen (tradeId r0)) x (ledgerAdd_subset _ hx)

/-- Every processed record gets its dedup key into the ledger by loop end. -/
theorem pollStep_mem_seen (wm : ℤ) (rs : List ActivityRecord) :
    ∀ seen r, r ∈ rs → tradeId r ∈ (pollStep wm seen rs).1 := by
  induction rs with
  | nil => intro seen r hr; cases hr
  | cons r0 rs ih =>
    intro seen r hr
    rcases List.mem_cons.mp hr with rfl | hr2
    · by_cases h1 : ledgerHas seen (tradeId r) = true
      · simpa [pollStep, h1] using pollStep_seen_mono wm rs seen _ (List.elem_iff.mp h1)
      · by_cases h2 : r.timestamp < wm - 5 <;>
          simpa [pollStep, h1, h2] using
            pollStep_seen_mono wm rs (ledgerAdd seen (tradeId r)) _
              (mem_ledgerAdd_self seen (tradeId r))
    · by_cases h1 : ledgerHas seen (tradeId r0) = true
      · simpa [pollStep, h1] using ih seen r hr2
      · by_cases h2 : r0.timestamp < wm - 5 <;>
          simpa [pollStep, h1, h2] using ih (ledgerAdd seen (tradeId r0)) r hr2

/-- Only records inside the five-second tolerance window are mirrored. -/
theorem pollStep_mirrored_fresh (wm : ℤ) (rs : List ActivityRecord) :
    ∀ seen m, m ∈ (pollStep wm seen rs).2 → wm - 5 ≤ m.timestamp := by
  induction rs with
  | nil => intro seen m hm; simp [pollStep] at hm
  | cons r0 rs ih =>
    intro seen m hm
    by_cases h1 : ledgerHas seen (tradeId r0) = true
    · exact ih seen m (by simpa [pollStep, h1] using hm)
    · by_cases h2 : r0.timestamp < wm - 5
      · exact ih (ledgerAdd seen (tradeId r0)) m (by simpa [pollStep, h1, h2] using hm)
      · have hm' : m = r0 ∨ m ∈ (pollStep wm (ledgerAdd seen (tradeId r0)) rs).2 := by
          simpa [pollStep, h1, h2, List.mem_cons] using hm
        rcases hm' with rfl | hm2
        · omega
        · exact ih _ m hm2

/-- Mirrored records carry dedup keys that were not yet in the ledger. -/
theorem pollStep_mirrored_new (wm : ℤ) (rs : List ActivityRecord) :
    ∀ seen m, m ∈ (pollStep wm seen rs).2 → tradeId m ∉ seen := by
  induction rs with
  | nil => intro seen m hm; simp [pollStep] at hm
  | cons r0 rs ih =>
    intro seen m hm
    by_cases h1 : ledgerHas seen (tradeId r0) = true
    · exact ih seen m (by simpa [pollStep, h1] using hm)
    · by_cases h2 : r0.timestamp < wm - 5
      · exact not_mem_of_not_mem_ledgerAdd
          (ih (ledgerAdd seen (tradeId r0)) m (by simpa [pollStep, h1, h2] using hm))
      · have hm' : m = r0 ∨ m ∈ (pollStep wm (ledgerAdd seen (tradeId r0)) rs).2 := by
          simpa [pollStep, h1, h2, List.mem_cons] using hm
        rcases hm' with rfl | hm2
        · exact fun hmem => h1 ((ledgerHas_iff seen (tradeId m)).mpr hmem)
        · exact not_mem_of_not_mem_ledgerAdd (ih _ m hm2)

/-- A key already in the ledger is never among the mirrored keys of the cycle. -/
theorem pollStep_count_zero (wm : ℤ) (rs : List ActivityRecord) (seen : List String)
    (id : String) (hid : id ∈ seen) :
    ((pollStep wm seen rs).2.map tradeId).count id = 0 := by
  rw [List.count_eq_zero]
  intro hmem
  obtain ⟨m, hm, hmid⟩ := List.mem_map.mp hmem
  exact pollStep_mirrored_new wm rs seen m hm (hmid.symm ▸ hid)

/-- A descending-sorted list stays sorted after dropping its head. -/
theorem sortedDesc_tail {a : ActivityRecord} {rs : List ActivityRecord}
    (h : sortedDesc (a :: rs) = true) : sortedDesc rs = true := by
  cases rs with
  | nil => rfl
  | cons b rs =>
    unfold sortedDesc at h
    rw [Bool.and_eq_true] at h
    exact h.2

/-- The head of a descending-sorted list dominates every later timestamp. -/
theorem sortedDesc_head_le {a : ActivityRecord} {rs : List ActivityRecord}
    (h : sortedDesc (a :: rs) = true) : ∀ r ∈ rs, r.timestamp ≤ a.timestamp := by
  induction rs generalizing a with
  | nil => intro r hr; cases hr
  | cons b rs ih =>
    intro r hr
    have hba : b.timestamp ≤ a.timestamp := by
      unfold sortedDesc at h
      rw [Bool.and_eq_true] at h
      exact of_decide_eq_true h.1
    rcases List.mem_cons.mp hr with rfl | hr2
    · exact hba
    · exact le_trans (ih (sortedDesc_tail h) r hr2) hba

/-- In a sorted cycle, a fresh record whose key is new is mirrored exactly
once. -/
theorem pollStep_count_one (wm : ℤ) (rs : List ActivityRecord) :
    ∀ (seen : List String) (id : String),
      sortedDesc rs = true → id ∉ seen →
      (∃ r ∈ rs, tradeId r = id ∧ wm - 5 ≤ r.timestamp) →
      ((pollStep wm seen rs).2.map tradeId).count id = 1 := by
  induction rs with
  | nil =>
    intro seen id _ _ hex
    obtain ⟨r, hr, _⟩ := hex
    cases hr
  | cons r0 rs ih =>
    intro seen id hs hid hex
    have hstail := sortedDesc_tail hs
    by_cases h1 : ledgerHas seen (tradeId r0) = true
    · have hne : tradeId r0 ≠ id := fun he => hid (he ▸ (ledgerHas_iff seen (tradeId r0)).mp h1)
      obtain ⟨r, hr, hrid, hrts⟩ := hex
      rcases List.mem_cons.mp hr with rfl | hr2
      · exact absurd hrid hne
      · simpa [pollStep, h1] using ih seen id hstail hid ⟨r, hr2, hrid, hrts⟩
    · by_cases h2 : r0.timestamp < wm - 5
      · obtain ⟨r, hr, hrid, hrts⟩ := hex
        rcases List.mem_cons.mp hr with rfl | hr2
        · omega
        · have := sortedDesc_head_le hs r hr2
          omega
      · by_cases h3 : tradeId r0 = id
        · have hzero : ((pollStep wm (ledgerAdd seen (tradeId r0)) rs).2.map tradeId).count id = 0 :=
            pollStep_count_zero wm rs _ id (h3 ▸ mem_ledgerAdd_self seen (tradeId r0))
          have h1' : ¬ledgerHas seen id = true := by
            rw [← h3]
            exact h1
          rw [h3] at hzero
          simp [pollStep, h3, h1', h2, List.count_cons, hzero]
        · obtain ⟨r, hr, hrid, hrts⟩ := hex
          rcases List.mem_cons.mp hr with rfl | hr2
          · exact absurd hrid h3
          · have hid' : id ∉ ledgerAdd seen (tradeId r0) :=
              not_mem_ledgerAdd_of hid (fun he => h3 he.symm)
            have hcnt := ih (ledgerAdd seen (tradeId r0)) id hstail hid' ⟨r, hr2, hrid, hrts⟩
            simp [pollStep, h1, h2, List.count_cons, h3, hcnt]

/-- The watermark update takes the newest observed timestamp when larger. -/
theorem updateWatermark_spec (wm : ℤ) (rs : List ActivityRecord)
    (hs : sortedDesc rs = true) :
    (∀ r ∈ rs, r.timestamp ≤ updateWatermark wm rs) ∧
    wm ≤ updateWatermark wm rs ∧
    (updateWatermark wm rs = wm ∨ ∃ r ∈ rs, updateWatermark wm rs = r.timestamp) := by
  cases rs with
  | nil => simp [updateWatermark]
  | cons t ts =>
    have hdom := sortedDesc_head_le hs
    simp only [updateWatermark]
    by_cases hgt : t.timestamp > wm
    · rw [if_pos hgt]
      refine ⟨?_, le_of_lt hgt, Or.inr ⟨t, List.mem_cons_self t ts, rfl⟩⟩
      intro r hr
      rcases List.mem_cons.mp hr with rfl | hr2
      · exact le_refl _
      · exact hdom r hr2
    · rw [if_neg hgt]
      push_neg at hgt
      refine ⟨?_, le_refl _, Or.inl rfl⟩
      intro r hr
      rcases List.mem_cons.mp hr with rfl | hr2
      · exact hgt
      · exact le_trans (hdom r hr2) hgt

/-- An id already present never yields another successful admission. -/
theorem admitResults_count_zero (rest : List String) :
    ∀ (seen : List String) (id : String), id ∈ seen →
      ((admitResults seen rest).filter (fun pr => pr.1 == id && pr.2)).length = 0 := by
  induction rest with
  | nil => intro seen id _; simp [admitResults]
  | cons a rest ih =>
    intro seen id hid
    by_cases h1 : ledgerHas seen a = true
    · simpa [admitResults, admitId, h1, List.filter_cons] using ih seen id hid
    · have hne : (a == id) = false := by
        refine beq_eq_false_iff_ne.mpr ?_
        intro he
        subst he
        exact h1 ((ledgerHas_iff seen a).mpr hid)
      simpa [admitResults, admitId, h1, List.filter_cons, hne] using
        ih (seen ++ [a]) id (List.mem_append_left _ hid)

/-- Claim C6: over any sequence of admissions with no intervening compaction,
the has-check-then-add admission of a given id succeeds exactly once when the
id occurs in the sequence and was not yet in the ledger, and zero times
otherwise; in particular every repeat admission of an id already present
returns false and is skipped. -/
theorem C6_admit_exactly_once (seen ops : List String) (id : String) :
    ((admitResults seen ops).filter (fun pr => pr.1 == id && pr.2)).length =
      if id ∈ ops ∧ id ∉ seen then 1 else 0 := by
  induction ops generalizing seen with
  | nil => simp [admitResults]
  | cons a rest ih =>
    by_cases h1 : ledgerHas seen a = true
    · have hmem : a ∈ seen := (ledgerHas_iff seen a).mp h1
      have hstep : ((admitResults seen (a :: rest)).filter (fun pr => pr.1 == id && pr.2)).length
          = ((admitResults seen rest).filter (fun pr => pr.1 == id && pr.2)).length := by
        simp [admitResults, admitId, h1, List.filter_cons]
      rw [hstep, ih seen]
      by_cases hia : id = a
      · subst hia
        simp [hmem]
      · simp [List.mem_cons, hia]
    · have hnmem : a ∉ seen := fun hm => h1 ((ledgerHas_iff seen a).mpr hm)
      by_cases hia : id = a
      · subst hia
        have hzero := admitResults_count_zero rest (seen ++ [id]) id
          (List.mem_append_right _ (List.mem_singleton_self id))
        simp [admitResults, admitId, h1, List.filter_cons, hzero, hnmem]
      · have hne : (a == id) = false := beq_eq_false_iff_ne.mpr (fun he => hia he.symm)
        have hstep : ((admitResults seen (a :: rest)).filter (fun pr => pr.1 == id && pr.2)).length
            = ((admitResults (seen ++ [a]) rest).filter (fun pr => pr.1 == id && pr.2)).length := by
          simp [admitResults, admitId, h1, List.filter_cons, hne]
        rw [hstep, ih (seen ++ [a])]
        have hmm : (id ∈ seen ++ [a]) ↔ id ∈ seen := by
          simp [List.mem_append, hia]
        simp [List.mem_cons, hia, hmm]

/-- ledgerAdd grows the key list by at most one entry. -/
theorem ledgerAdd_length (seen : List String) (id : String) :
    (ledgerAdd seen id).length ≤ seen.length + 1 := by
  unfold ledgerAdd
  split
  · omega
  · simp

/-- The poll loop adds at most one ledger entry per processed record. -/
theorem pollStep_length (wm : ℤ) (rs : List ActivityRecord) :
    ∀ seen, (pollStep wm seen rs).1.length ≤ seen.length + rs.length := by
  induction rs with
  | nil => intro seen; simp [pollStep]
  | cons r0 rs ih =>
    intro seen
    by_cases h1 : ledgerHas seen (tradeId r0) = true
    · have h := ih seen
      simp only [pollStep, h1, if_true, List.length_cons]
      omega
    · have h := ih (ledgerAdd seen (tradeId r0))
      have hadd := ledgerAdd_length seen (tradeId r0)
      by_cases h2 : r0.timestamp < wm - 5 <;> simp [pollStep, h1, h2] <;> omega

/-- Inserting into a sorted run adds one element. -/
theorem length_insertDesc (r : ActivityRecord) (l : List ActivityRecord) :
    (insertDesc r l).length = l.length + 1 := by
  induction l with
  | nil => rfl
  | cons x xs ih =>
    unfold insertDesc
    split
    · simp [ih]
    · simp

/-- The descending sort is a permutation in size. -/
theorem length_sortDesc (l : List ActivityRecord) : (sortDesc l).length = l.length := by
  induction l with
  | nil => rfl
  | cons x xs ih =>
    show (insertDesc x (sortDesc xs)).length = xs.length + 1
    rw [length_insertDesc, ih]

/-- Claim C7: a poll cycle keeps the ledger within the 10000-key capacity
(for any fetched page within the API page bound), and the compaction step, on
a ledger that has just exceeded capacity by one, drops exactly the oldest
5000 keys in one batch, leaving the (10001 + 1) / 2 = 5001 most recently
inserted keys. -/
theorem C7_ledger_bound (st : PollState) (activity : List ActivityRecord)
    (h1 : st.seen.length ≤ 10000) (h2 : activity.length ≤ 5000)
    (l : List String) (hl : l.length = 10001) :
    (pollForTrades st activity).1.seen.length ≤ 10000 ∧
    compactLedger l = l.drop 5000 ∧
    (compactLedger l).length = (10001 + 1) / 2 ∧
    l.take 5000 ++ compactLedger l = l := by
  refine ⟨?_, ?_, ?_, ?_⟩
  · have hlen := pollStep_length st.lastTimestamp (sortDesc (tradeFilter activity)) st.seen
    have hsort : (sortDesc (tradeFilter activity)).length = (tradeFilter activity).length :=
      length_sortDesc _
    have hft : (tradeFilter activity).length ≤ activity.length := List.length_filter_le _ _
    show (compactLedger
        (pollStep st.lastTimestamp st.seen (sortDesc (tradeFilter activity))).1).length ≤ 10000
    unfold compactLedger
    split
    · rw [List.length_drop]
      omega
    · next h => omega
  · simp [compactLedger, hl]
  · simp [compactLedger, hl]
  · simp [compactLedger, hl, List.take_append_drop]

/-- Claim C7 (witness): the cycle bound instantiated at the empty state and an
empty page, and the compaction facts instantiated at a concrete 10001-key
ledger. -/
theorem C7_witness :
    (pollForTrades ⟨[], 0⟩ []).1.seen.length ≤ 10000 ∧
    compactLedger (List.replicate 10001 "x") = (List.replicate 10001 "x").drop 5000 ∧
    (compactLedger (List.replicate 10001 "x")).length = (10001 + 1) / 2 ∧
    (List.replicate 10001 "x").take 5000 ++ compactLedger (List.replicate 10001 "x") =
      List.replicate 10001 "x" :=
  C7_ledger_bound ⟨[], 0⟩ [] (by decide) (by decide) (List.replicate 10001 "x")
    (List.length_replicate 10001 "x")

/-- Claim C8: in a poll cycle over a descending-sorted trade list, every
record older than watermark - 5 ends with its key in the ledger yet is not
mirrored; every record within the tolerance whose key is not yet in the
ledger is mirrored exactly once; and the watermark after the cycle bounds all
observed timestamps, never decreases, and changes only to an observed
timestamp. -/
theorem C8_poll_cycle (wm : ℤ) (seen : List String) (trades : List ActivityRecord)
    (hs : sortedDesc trades = true) :
    (∀ r ∈ trades, r.timestamp < wm - 5 →
        tradeId r ∈ (pollStep wm seen trades).1 ∧ r ∉ (pollStep wm seen trades).2) ∧
    (∀ r ∈ trades, wm - 5 ≤ r.timestamp → tradeId r ∉ seen →
        ((pollStep wm seen trades).2.map tradeId).count (tradeId r) = 1) ∧
    (∀ r ∈ trades, r.timestamp ≤ updateWatermark wm trades) ∧
    wm ≤ updateWatermark wm trades ∧
    (updateWatermark wm trades = wm ∨ ∃ r ∈ trades, updateWatermark wm trades = r.timestamp) := by
  obtain ⟨hw1, hw2, hw3⟩ := updateWatermark_spec wm trades hs
  refine ⟨?_, ?_, hw1, hw2, hw3⟩
  · intro r hr hstale
    refine ⟨pollStep_mem_seen wm trades seen r hr, ?_⟩
    intro hmem
    have := pollStep_mirrored_fresh wm trades seen r hmem
    omega
  · intro r hr hfresh hnot
    exact pollStep_count_one wm trades seen (tradeId r) hs hnot ⟨r, hr, rfl, hfresh⟩

/-- Claim C8 (witness): in a concrete sorted cycle at watermark 100, the fresh
unseen record is mirrored exactly once. -/
theorem C8_witness :
    ((pollStep 100 ["0xt0-000"] [recFresh, recStale]).2.map tradeId).count (tradeId recFresh) = 1 :=
  (C8_poll_cycle 100 ["0xt0-000"] [recFresh, recStale] (by decide)).2.1 recFresh
    (by decide) (by decide) (by decide)

/-- Claim C10: whatever put a key into the ledger — a mirrored trade or a
stale-backlog marking — no record carrying that key is handed to the order
mirror by any poll cycle that starts with the key still in the ledger, even
when the record has a timestamp satisfying the tolerance window. -/
theorem C10_no_remirror (st : PollState) (activity : List ActivityRecord) (id : String)
    (h : id ∈ st.seen) :
    ∀ m ∈ (pollForTrades st activity).2, tradeId m ≠ id := by
  intro m hm he
  have hm' : m ∈ (pollStep st.lastTimestamp st.seen (sortDesc (tradeFilter activity))).2 := hm
  exact pollStep_mirrored_new st.lastTimestamp (sortDesc (tradeFilter activity)) st.seen m hm'
    (he.symm ▸ h)

/-- Claim C10 (witness): with the key of recFresh pre-seeded in the ledger, the one
record the concrete cycle mirrors is not recFresh, even though the recFresh
timestamp is inside the tolerance window. -/
theorem C10_witness : tradeId recOther ≠ "0xt1-111" :=
  C10_no_remirror seededState [recFresh, recOther] "0xt1-111" (by decide) recOther (by decide)

end PolyCopy
